import Mathlib

/-!
Shallow embedding of the brain2text preprocessing pipeline
(`build_matrices.py`, `filter_utils.py`, `tfs_pickling.py`) and proofs of
the specification claims about it.

Machine reals are modelled by `ℚ`; numpy arrays by nested lists
(time-major: a signal matrix is a list of rows).  Repository modules that
are imported by the sources but absent from the source tree
(`utils.calculate_windows_params`, `utils.test_for_bad_window`,
`gram_utils`, `electrode_utils.return_electrode_array`,
`utils.return_conversations`, `utils.return_examples`) are represented
either by explicit function parameters (window parameters, bad-window
test) or by definitions modelled from the spec (gram generation); the
per-conversation results of the file-system reading helpers are bundled
into a `ConvData` record consumed by the loop body that *is* in the
sources.
-/

namespace Brain2Text

/-- A word-level annotated example: the tuple
`(word, speaker, onset, offset, accuracy)` used throughout the sources
(`return_examples` rows, the label tuples consumed by
`adjust_label_onsets`). -/
structure WordLabel where
  word : String
  speaker : String
  onset : Int
  offset : Int
  accuracy : ℚ
deriving DecidableEq, Inhabited

/-- A gram: one or two consecutive annotated words (`gram_utils`). -/
abbrev Gram := List WordLabel

/-- The configuration fields of `CONFIG` that the embedded code reads. -/
structure Config where
  classify : Bool
  max_electrodes : List Nat
deriving Inhabited

/-- The per-conversation data `build_design_matrices` obtains before its
gram loop: whether `glob.glob(conversation + suffix)` found a datum file,
the electrode array returned by `return_electrode_array`, the examples
returned by `return_examples`, and the conversation's electrode-group
index `idx`. -/
structure ConvData where
  hasDatum : Bool
  ecogs : List (List ℚ)
  examples : List WordLabel
  idx : Nat
deriving Inhabited

/-- `ecogs.size` of numpy: the total number of scalar entries. -/
def ecogsSize (ecogs : List (List ℚ)) : Nat :=
  (ecogs.map List.length).sum

/-- `cumsum_electrodes`: `list(np.cumsum(CONFIG['max_electrodes']))` with
`0` inserted at the front, i.e. entry `k` is the sum of the first `k`
electrode counts. -/
def cumsumE (me : List Nat) : List Nat :=
  (List.range (me.length + 1)).map (fun k => (me.take k).sum)

/-- The part sizes used by `np.array_split(_, n)` on a length-`len`
array: the first `len % n` parts get `len / n + 1` elements, the rest
get `len / n`. -/
def splitSizes (len n : Nat) : List Nat :=
  (List.range n).map (fun i => if i < len % n then len / n + 1 else len / n)

/-- Cut successive chunks of the given sizes off the front of a list. -/
def chunks (l : List α) : List Nat → List (List α)
  | [] => []
  | s :: ss => l.take s :: chunks (l.drop s) ss

/-- `np.array_split(l, n, axis=0)`. -/
def arraySplit (l : List α) (n : Nat) : List (List α) :=
  chunks l (splitSizes l.length n)

/-- `f.mean(axis=0)` for a rows-by-`ncols` block `f`: the channel-wise
mean, one entry per column. -/
def colMean (ncols : Nat) (f : List (List ℚ)) : List ℚ :=
  (List.range ncols).map (fun j => ((f.map (fun r => r.getD j 0)).sum) / (f.length : ℚ))

/-- Numpy slice assignment `row[a : a + vals.length] = vals`. -/
def writeSeg (row : List ℚ) (a : Nat) (vals : List ℚ) : List ℚ :=
  row.take a ++ vals ++ row.drop (a + vals.length)

/-- The row slice `ecogs[start_onset:end_onset, :]`. -/
def ecogWindow (ecogs : List (List ℚ)) (start_onset end_onset : Nat) :
    List (List ℚ) :=
  (ecogs.drop start_onset).take (end_onset - start_onset)

/-- The `word_signal` built for one accepted gram
(`build_matrices.py` lines 80–87): an `n_bins × sum(max_electrodes)`
zero matrix whose columns `cumsum_electrodes[idx] .. cumsum_electrodes[idx+1]`
of row `i` hold the channel-wise mean of the `i`-th part of
`np.array_split(ecogs[start_onset:end_onset, :], n_bins, axis=0)`. -/
def word_signal (me : List Nat) (idx : Nat) (ecogs : List (List ℚ))
    (start_onset end_onset n_bins : Nat) : List (List ℚ) :=
  (arraySplit (ecogWindow ecogs start_onset end_onset) n_bins).map
    (fun f => writeSeg (List.replicate me.sum (0 : ℚ)) ((cumsumE me).getD idx 0)
      (colMean (ecogs.headD []).length f))

/-- Modelled from the spec: `gram_utils.generate_unigrams` is not in the
source tree; per the spec a gram is "one or two consecutive words", so
the unigrams of an example list are its single words. -/
def generate_unigrams (examples : List WordLabel) : List Gram :=
  examples.map (fun e => [e])

/-- Modelled from the spec: `gram_utils.generate_bigrams` is not in the
source tree; per the spec the bigrams are the pairs of consecutive
words. -/
def generate_bigrams : List WordLabel → List Gram
  | [] => []
  | [_] => []
  | a :: b :: rest => [a, b] :: generate_bigrams (b :: rest)

/-- Modelled from the spec: `gram_utils.remove_duplicates` is not in the
source tree; both it and the `set(unigrams)` conversion remove duplicate
grams. -/
def remove_duplicates (grams : List Gram) : List Gram :=
  grams.dedup

/-- The pre-deduplication gram list of a conversation
(`build_matrices.py` lines 54–65: unigrams when `CONFIG["classify"]`,
else bigrams). -/
def pregrams (classify : Bool) (examples : List WordLabel) : List Gram :=
  if classify then generate_unigrams examples else generate_bigrams examples

/-- The body of the gram loop (`build_matrices.py` lines 67–90).
`winParams` stands for the absent `utils.calculate_windows_params`
(yielding `seq_length, start_onset, end_onset, n_bins`) and `badWindow`
for the absent `utils.test_for_bad_window` (receiving the window bounds
and `ecogs.shape`).  A gram whose `seq_length` is non-positive or whose
window is bad appends nothing; an accepted gram appends its first word
to `labels` and its `word_signal` to `signals`. -/
def processGram (cfg : Config) (winParams : Gram → Int × Nat × Nat × Nat)
    (badWindow : Nat → Nat → Nat × Nat → Bool)
    (ecogs : List (List ℚ)) (idx : Nat)
    (acc : List (List (List ℚ)) × List WordLabel) (gram : Gram) :
    List (List (List ℚ)) × List WordLabel :=
  let (seq_length, start_onset, end_onset, n_bins) := winParams gram
  if seq_length ≤ 0 then acc
  else if badWindow start_onset end_onset (ecogs.length, (ecogs.headD []).length) then acc
  else (acc.1 ++ [word_signal cfg.max_electrodes idx ecogs start_onset end_onset n_bins],
        acc.2 ++ [gram.headD default])

/-- One iteration of the conversation loop (`build_matrices.py` lines
37–90): skip when the datum file is missing, when the electrode array is
empty, or when the conversation yields no grams; otherwise fold the gram
loop over the deduplicated grams. -/
def processConv (cfg : Config) (winParams : Gram → Int × Nat × Nat × Nat)
    (badWindow : Nat → Nat → Nat × Nat → Bool)
    (acc : List (List (List ℚ)) × List WordLabel) (conv : ConvData) :
    List (List (List ℚ)) × List WordLabel :=
  if conv.hasDatum = false then acc
  else if ecogsSize conv.ecogs = 0 then acc
  else
    let pg := pregrams cfg.classify conv.examples
    if pg.isEmpty then acc
    else (pg.dedup).foldl (processGram cfg winParams badWindow conv.ecogs conv.idx) acc

/-- `build_design_matrices` (`build_matrices.py`): fold the conversation
loop over the first 20 conversations, then evaluate
`max([len(i) for i in signals])` — which raises `ValueError` on an empty
`signals` — and the final assertion `len(labels) == len(signals)`, and
return `(signals, labels)`. -/
def build_design_matrices (cfg : Config)
    (winParams : Gram → Int × Nat × Nat × Nat)
    (badWindow : Nat → Nat → Nat × Nat → Bool)
    (convs : List ConvData) :
    Except String (List (List (List ℚ)) × List WordLabel) :=
  let p := (convs.take 20).foldl (processConv cfg winParams badWindow) ([], [])
  if p.1.isEmpty then Except.error "ValueError: max arg is an empty sequence"
  else if p.2.length = p.1.length then Except.ok p
  else Except.error "AssertionError: Bad Shape for Lengths"

/-- The count printed as `Total number of conversations`
(`build_matrices.py` line 92): the length of the full conversation list,
not of the processed slice. -/
def totalConversationsReported (convs : List ConvData) : Nat :=
  convs.length

/-! ### Helper lemmas about the conversation and gram loops -/

lemma foldl_invariant {σ α : Type _} (P : σ → Prop) (step : σ → α → σ)
    (hstep : ∀ s a, P s → P (step s a)) :
    ∀ (l : List α) (s : σ), P s → P (l.foldl step s)
  | [], _, hs => hs
  | a :: l, s, hs => foldl_invariant P step hstep l (step s a) (hstep s a hs)

lemma processGram_eq_or_append (cfg : Config)
    (winParams : Gram → Int × Nat × Nat × Nat)
    (badWindow : Nat → Nat → Nat × Nat → Bool)
    (ecogs : List (List ℚ)) (idx : Nat)
    (acc : List (List (List ℚ)) × List WordLabel) (gram : Gram) :
    processGram cfg winParams badWindow ecogs idx acc gram = acc ∨
    processGram cfg winParams badWindow ecogs idx acc gram =
      (acc.1 ++ [word_signal cfg.max_electrodes idx ecogs
                  (winParams gram).2.1 (winParams gram).2.2.1 (winParams gram).2.2.2],
       acc.2 ++ [gram.headD default]) := by
  unfold processGram
  rcases hw : winParams gram with ⟨sl, st, en, nb⟩
  dsimp only
  split
  · exact Or.inl rfl
  · split
    · exact Or.inl rfl
    · right
      rfl

lemma processGram_preserves_len (cfg : Config)
    (winParams : Gram → Int × Nat × Nat × Nat)
    (badWindow : Nat → Nat → Nat × Nat → Bool)
    (ecogs : List (List ℚ)) (idx : Nat)
    (acc : List (List (List ℚ)) × List WordLabel) (gram : Gram)
    (h : acc.1.length = acc.2.length) :
    (processGram cfg winParams badWindow ecogs idx acc gram).1.length =
    (processGram cfg winParams badWindow ecogs idx acc gram).2.length := by
  rcases processGram_eq_or_append cfg winParams badWindow ecogs idx acc gram with he | he
  · rw [he]; exact h
  · rw [he]; simp [h]

lemma processConv_preserves_len (cfg : Config)
    (winParams : Gram → Int × Nat × Nat × Nat)
    (badWindow : Nat → Nat → Nat × Nat → Bool)
    (acc : List (List (List ℚ)) × List WordLabel) (conv : ConvData)
    (h : acc.1.length = acc.2.length) :
    (processConv cfg winParams badWindow acc conv).1.length =
    (processConv cfg winParams badWindow acc conv).2.length := by
  unfold processConv
  split
  · exact h
  · split
    · exact h
    · dsimp only
      split
      · exact h
      · exact foldl_invariant (fun p => p.1.length = p.2.length) _
          (fun s a hs => processGram_preserves_len cfg winParams badWindow _ _ s a hs)
          _ acc h

lemma build_fold_len (cfg : Config)
    (winParams : Gram → Int × Nat × Nat × Nat)
    (badWindow : Nat → Nat → Nat × Nat → Bool) (convs : List ConvData) :
    ((convs.take 20).foldl (processConv cfg winParams badWindow) ([], [])).1.length
      = ((convs.take 20).foldl (processConv cfg winParams badWindow) ([], [])).2.length :=
  foldl_invariant (fun p => p.1.length = p.2.length) _
    (fun s a hs => processConv_preserves_len cfg winParams badWindow s a hs)
    (convs.take 20) ([], []) rfl

/-! ### Claims about the build loop -/

/-- C2: the returned labels and signals lists always have equal length:
each accepted gram appends exactly one signal and one label, each
rejected gram appends neither, and the final assertion
`len(labels) == len(signals)` never fails (so `build_design_matrices`
never returns the assertion error). -/
theorem c2_labels_signals_equal_length (cfg : Config)
    (winParams : Gram → Int × Nat × Nat × Nat)
    (badWindow : Nat → Nat → Nat × Nat → Bool) (convs : List ConvData) :
    (∀ ecogs idx acc gram,
        processGram cfg winParams badWindow ecogs idx acc gram = acc ∨
        ((processGram cfg winParams badWindow ecogs idx acc gram).1.length
            = acc.1.length + 1 ∧
         (processGram cfg winParams badWindow ecogs idx acc gram).2.length
            = acc.2.length + 1))
    ∧ ((convs.take 20).foldl (processConv cfg winParams badWindow) ([], [])).1.length
        = ((convs.take 20).foldl (processConv cfg winParams badWindow) ([], [])).2.length
    ∧ build_design_matrices cfg winParams badWindow convs ≠
        Except.error "AssertionError: Bad Shape for Lengths" := by
  refine ⟨?_, build_fold_len cfg winParams badWindow convs, ?_⟩
  · intro ecogs idx acc gram
    rcases processGram_eq_or_append cfg winParams badWindow ecogs idx acc gram with he | he
    · exact Or.inl he
    · right
      rw [he]
      simp
  · unfold build_design_matrices
    dsimp only
    split
    · intro hcontra
      exact absurd (Except.error.inj hcontra) (by decide)
    · rw [if_pos (build_fold_len cfg winParams badWindow convs).symm]
      intro hcontra
      cases hcontra

/-- C3: a conversation with a missing datum file, an empty electrode
array, or no grams is skipped — its loop iteration leaves the
accumulator unchanged and processing continues with the remaining
conversations; no exception escapes the (total) loop step for a missing
datum file. -/
theorem c3_skip_bad_conversations (cfg : Config)
    (winParams : Gram → Int × Nat × Nat × Nat)
    (badWindow : Nat → Nat → Nat × Nat → Bool)
    (acc : List (List (List ℚ)) × List WordLabel) (conv : ConvData)
    (h : conv.hasDatum = false ∨ ecogsSize conv.ecogs = 0 ∨
         pregrams cfg.classify conv.examples = []) :
    processConv cfg winParams badWindow acc conv = acc ∧
    ∀ rest : List ConvData,
      (conv :: rest).foldl (processConv cfg winParams badWindow) acc =
        rest.foldl (processConv cfg winParams badWindow) acc := by
  have hskip : processConv cfg winParams badWindow acc conv = acc := by
    unfold processConv
    rcases h with h | h | h
    · rw [if_pos h]
    · split
      · rfl
      · simp [h]
    · split
      · rfl
      · split
        · rfl
        · simp [h]
  refine ⟨hskip, fun rest => ?_⟩
  rw [List.foldl_cons, hskip]

/-- Witness for C3 at a concrete skipped conversation. -/
theorem c3_skip_bad_conversations_witness :
    ((⟨false, [], [], 0⟩ : ConvData).hasDatum = false ∨
      ecogsSize (⟨false, [], [], 0⟩ : ConvData).ecogs = 0 ∨
      pregrams (⟨true, []⟩ : Config).classify (⟨false, [], [], 0⟩ : ConvData).examples = []) ∧
    (processConv ⟨true, []⟩ (fun _ => (0, 0, 0, 0)) (fun _ _ _ => false)
        ([], []) ⟨false, [], [], 0⟩ = ([], []) ∧
      ∀ rest : List ConvData,
        ((⟨false, [], [], 0⟩ : ConvData) :: rest).foldl
            (processConv ⟨true, []⟩ (fun _ => (0, 0, 0, 0)) (fun _ _ _ => false)) ([], []) =
          rest.foldl
            (processConv ⟨true, []⟩ (fun _ => (0, 0, 0, 0)) (fun _ _ _ => false)) ([], [])) :=
  ⟨Or.inl rfl,
   c3_skip_bad_conversations ⟨true, []⟩ (fun _ => (0, 0, 0, 0)) (fun _ _ _ => false)
     ([], []) ⟨false, [], [], 0⟩ (Or.inl rfl)⟩

/-- C9: only the first 20 conversations are processed — the result over
the full conversation list equals the result over its first 20
conversations, so conversations past the 20th contribute no signals and
no labels — while the reported total conversation count is the length of
the whole list. -/
theorem c9_only_first_twenty (cfg : Config)
    (winParams : Gram → Int × Nat × Nat × Nat)
    (badWindow : Nat → Nat → Nat × Nat → Bool) (convs : List ConvData)
    (h : 20 < convs.length) :
    build_design_matrices cfg winParams badWindow convs =
      build_design_matrices cfg winParams badWindow (convs.take 20) ∧
    totalConversationsReported convs = convs.length ∧
    (convs.take 20).length = 20 := by
  refine ⟨?_, rfl, ?_⟩
  · unfold build_design_matrices
    rw [List.take_take, Nat.min_self]
  · rw [List.length_take]
    exact Nat.min_eq_left (Nat.le_of_lt h)

/-- Witness for C9 on a list of 21 conversations. -/
theorem c9_only_first_twenty_witness :
    20 < (List.replicate 21 (default : ConvData)).length ∧
    (build_design_matrices ⟨true, []⟩ (fun _ => (0, 0, 0, 0)) (fun _ _ _ => false)
        (List.replicate 21 (default : ConvData)) =
      build_design_matrices ⟨true, []⟩ (fun _ => (0, 0, 0, 0)) (fun _ _ _ => false)
        ((List.replicate 21 (default : ConvData)).take 20) ∧
      totalConversationsReported (List.replicate 21 (default : ConvData)) =
        (List.replicate 21 (default : ConvData)).length ∧
      ((List.replicate 21 (default : ConvData)).take 20).length = 20) :=
  ⟨by simp,
   c9_only_first_twenty ⟨true, []⟩ (fun _ => (0, 0, 0, 0)) (fun _ _ _ => false)
     (List.replicate 21 (default : ConvData)) (by simp)⟩

/-- C10: when no conversation contributes an example, the function does
not return empty lists: `max([len(i) for i in signals])` is evaluated on
an empty sequence and raises, modelled as the `ValueError` result. -/
theorem c10_empty_signals_raise (cfg : Config)
    (winParams : Gram → Int × Nat × Nat × Nat)
    (badWindow : Nat → Nat → Nat × Nat → Bool) (convs : List ConvData)
    (h : ((convs.take 20).foldl (processConv cfg winParams badWindow) ([], [])).1 = []) :
    build_design_matrices cfg winParams badWindow convs =
      Except.error "ValueError: max arg is an empty sequence" := by
  unfold build_design_matrices
  rw [if_pos (List.isEmpty_iff.mpr h)]

/-- Witness for C10 on an empty conversation list. -/
theorem c10_empty_signals_raise_witness :
    ((([] : List ConvData).take 20).foldl
        (processConv ⟨true, []⟩ (fun _ => (0, 0, 0, 0)) (fun _ _ _ => false)) ([], [])).1 = [] ∧
    build_design_matrices ⟨true, []⟩ (fun _ => (0, 0, 0, 0)) (fun _ _ _ => false) [] =
      Except.error "ValueError: max arg is an empty sequence" :=
  ⟨rfl,
   c10_empty_signals_raise ⟨true, []⟩ (fun _ => (0, 0, 0, 0)) (fun _ _ _ => false) [] rfl⟩

/-! ### `tfs_pickling.main` and the arity of `build_design_matrices` -/

/-- A component of the tuple returned by `build_design_matrices`. -/
inductive PyComponent where
  | signalsC : List (List (List ℚ)) → PyComponent
  | labelsC : List WordLabel → PyComponent

/-- The tuple `build_design_matrices` actually returns
(`build_matrices.py` line 100): the two components `signals, labels`. -/
def build_return_tuple (cfg : Config)
    (winParams : Gram → Int × Nat × Nat × Nat)
    (badWindow : Nat → Nat → Nat × Nat → Bool)
    (convs : List ConvData) : Except String (List PyComponent) :=
  (build_design_matrices cfg winParams badWindow convs).map
    (fun p => [PyComponent.signalsC p.1, PyComponent.labelsC p.2])

/-- `tfs_pickling.main` under `CONFIG['pickle']` (lines 99–136): unpack
the return of `build_design_matrices` into nine names — which raises
`ValueError` unless the tuple has nine components — and only then write
the five pickle families. -/
def main_pickle (cfg : Config)
    (winParams : Gram → Int × Nat × Nat × Nat)
    (badWindow : Nat → Nat → Nat × Nat → Bool)
    (convs : List ConvData) : Except String (List String) :=
  match build_return_tuple cfg winParams badWindow convs with
  | Except.error e => Except.error e
  | Except.ok comps =>
      if comps.length = 9 then
        Except.ok ["625_full_signal", "625_trimmed_signal", "625_binned_signal",
                   "625_all_labels", "625_both_labels_MWF", "625_prod_labels_MWF",
                   "625_comp_labels_MWF"]
      else Except.error "ValueError: not enough values to unpack"

/-- C8: `tfs_pickling.main` expects nine components from
`build_design_matrices`, but the function returns only two
(`signals, labels`), so the unpacking raises `ValueError` and no pickle
file is ever written — shown on a concrete successful build, and in
general `main_pickle` never succeeds. -/
theorem c8_main_unpack_mismatch :
    main_pickle ⟨true, [1]⟩ (fun _ => (1, 0, 1, 1)) (fun _ _ _ => false)
        [⟨true, [[1]], [default], 0⟩] =
      Except.error "ValueError: not enough values to unpack" ∧
    ∀ (cfg : Config) (winParams : Gram → Int × Nat × Nat × Nat)
      (badWindow : Nat → Nat → Nat × Nat → Bool) (convs : List ConvData)
      (files : List String),
        main_pickle cfg winParams badWindow convs ≠ Except.ok files := by
  constructor
  · rfl
  · intro cfg winParams badWindow convs files
    unfold main_pickle build_return_tuple
    cases hb : build_design_matrices cfg winParams badWindow convs with
    | error e => simp [hb, Except.map]
    | ok p => simp [hb, Except.map]

/-! ### `adjust_label_onsets` (`tfs_pickling.py` lines 34–58) -/

/-- `adjust_label_onsets`: prepend `0` to the trimmed stitch indices and
drop the last one (`insert(0, 0)`; `pop(-1)`), then shift each
conversation's label onsets and offsets by its start and stem the word,
flattening everything into one list of rows.  `stem` stands for the
nltk `PorterStemmer().stem`. -/
def adjust_label_onsets (stem : String → String) (trimmed_stitch_index : List Int)
    (labels : List (List WordLabel)) : List WordLabel :=
  let starts := (((0 : Int) :: trimmed_stitch_index)).dropLast
  ((starts.zip labels).map (fun p =>
    p.2.map (fun i =>
      ⟨stem i.word, i.speaker, i.onset + p.1, i.offset + p.1, i.accuracy⟩))).flatten

lemma adjust_aux (stem : String → String) :
    ∀ (starts : List Int) (labels : List (List WordLabel)),
      starts.length = labels.length →
      ((starts.zip labels).map (fun p => p.2.map (fun i =>
          (⟨stem i.word, i.speaker, i.onset + p.1, i.offset + p.1,
            i.accuracy⟩ : WordLabel)))).flatten =
      ((List.range labels.length).map (fun k => (labels.getD k []).map (fun i =>
          (⟨stem i.word, i.speaker, i.onset + starts.getD k 0,
            i.offset + starts.getD k 0, i.accuracy⟩ : WordLabel)))).flatten
  | [], [], _ => rfl
  | s :: ss, l :: ls, h => by
    have h1 : ss.length = ls.length := Nat.succ_injective h
    have IH := adjust_aux stem ss ls h1
    simp only [List.zip_cons_cons, List.map_cons, List.flatten_cons, List.length_cons,
      List.range_succ_eq_map, List.map_map, List.getD_cons_zero, List.getD_cons_succ,
      Function.comp]
    rw [IH]
    refine congrArg₂ (· ++ ·) rfl
      (congrArg List.flatten (List.map_congr_left (fun k _ => ?_)))
    simp [Function.comp, List.getD_cons_succ]

lemma dropLast_getD {A : Type _} (l : List A) (k : Nat) (d : A)
    (h : k + 1 < l.length) : l.dropLast.getD k d = l.getD k d := by
  rw [List.getD_eq_getElem?_getD, List.getD_eq_getElem?_getD, List.getElem?_dropLast]
  rw [if_pos (by omega : k < l.length - 1)]

/-- C7: with equally many stitch indices and per-conversation label
lists, `adjust_label_onsets` shifts conversation `k`'s onsets and
offsets by `(0 :: trimmed_stitch_index)[k]` — `0` for the first
conversation, the `(k-1)`-th trimmed stitch index for conversation `k` —
stems the word, leaves speaker and accuracy unchanged, and flattens all
re-aligned labels into one list. -/
theorem c7_adjust_label_onsets (stem : String → String)
    (trimmed_stitch_index : List Int) (labels : List (List WordLabel))
    (h : trimmed_stitch_index.length = labels.length) :
    adjust_label_onsets stem trimmed_stitch_index labels =
      ((List.range labels.length).map (fun k =>
        (labels.getD k []).map (fun i =>
          ⟨stem i.word, i.speaker,
           i.onset + (((0 : Int) :: trimmed_stitch_index)).getD k 0,
           i.offset + (((0 : Int) :: trimmed_stitch_index)).getD k 0,
           i.accuracy⟩))).flatten := by
  unfold adjust_label_onsets
  dsimp only
  have hlen : (((0 : Int) :: trimmed_stitch_index)).dropLast.length = labels.length := by
    rw [List.length_dropLast, List.length_cons, h]
    omega
  rw [adjust_aux stem _ labels hlen]
  refine congrArg _ (List.map_congr_left (fun k hk => ?_))
  have hk1 : k + 1 < (((0 : Int) :: trimmed_stitch_index)).length := by
    rw [List.length_cons, h]
    exact Nat.succ_lt_succ (List.mem_range.mp hk)
  rw [dropLast_getD _ k 0 hk1]

/-- Witness for C7. -/
theorem c7_adjust_label_onsets_witness :
    ([(3 : Int), (7 : Int)].length = [[(default : WordLabel)], []].length) ∧
    adjust_label_onsets id [(3 : Int), (7 : Int)] [[(default : WordLabel)], []] =
      ((List.range ([[(default : WordLabel)], []]).length).map (fun k =>
        (([[(default : WordLabel)], []]).getD k []).map (fun i =>
          ⟨id i.word, i.speaker,
           i.onset + (((0 : Int) :: [(3 : Int), (7 : Int)])).getD k 0,
           i.offset + (((0 : Int) :: [(3 : Int), (7 : Int)])).getD k 0,
           i.accuracy⟩))).flatten :=
  ⟨rfl, c7_adjust_label_onsets id [(3 : Int), (7 : Int)] [[(default : WordLabel)], []] rfl⟩

/-! ### `filter_utils.py` -/

/-- `label_counts`: the `Counter` of the labels, as association pairs
(one per distinct label, with its multiplicity). -/
def label_counts {L : Type} [DecidableEq L] (labels : List L) : List (L × Nat) :=
  labels.dedup.map (fun l => (l, labels.count l))

/-- `return_label_flag`: keep-flags marking the labels that occur at
least `set_min_samples` times (`select_labels` membership). -/
def return_label_flag {L : Type} [DecidableEq L] (labels : List L)
    (set_min_samples : Nat) : List Bool :=
  let select_labels :=
    ((label_counts labels).filter (fun p => set_min_samples ≤ p.2)).map Prod.fst
  labels.map (fun label => decide (label ∈ select_labels))

/-- `return_signal_flag`: keep-flags marking the signals whose length is
at most `set_max_seq_length`. -/
def return_signal_flag {β : Type} (signals : List (List β))
    (set_max_seq_length : Nat) : List Bool :=
  let seq_lengths := signals.map List.length
  seq_lengths.map (fun seq_length => decide (seq_length ≤ set_max_seq_length))

/-- `itertools.compress`: the elements whose flag is set, in order
(truncating at the shorter input). -/
def compress {α : Type} (xs : List α) (flags : List Bool) : List α :=
  ((xs.zip flags).filter (fun p => p.2)).map Prod.fst

/-- `filter_by_labels`. -/
def filter_by_labels {β L : Type} [DecidableEq L] (signals : List (List β))
    (labels : List L) (set_min_samples : Nat) : List (List β) × List L :=
  let label_flag := return_label_flag labels set_min_samples
  (compress signals label_flag, compress labels label_flag)

/-- `filter_by_signals`. -/
def filter_by_signals {β L : Type} (signals : List (List β))
    (labels : List L) (set_max_seq_length : Nat) : List (List β) × List L :=
  let signal_flag := return_signal_flag signals set_max_seq_length
  (compress signals signal_flag, compress labels signal_flag)

lemma return_label_flag_eq {L : Type} [DecidableEq L] (labels : List L)
    (set_min_samples : Nat) :
    return_label_flag labels set_min_samples =
      labels.map (fun l => decide (set_min_samples ≤ labels.count l)) := by
  unfold return_label_flag
  refine List.map_congr_left (fun l hl => ?_)
  rw [decide_eq_decide]
  unfold label_counts
  simp only [List.mem_map, List.mem_filter, List.mem_dedup, Prod.exists,
    decide_eq_true_eq]
  constructor
  · rintro ⟨x, n, ⟨⟨a, _, heq⟩, hc⟩, rfl⟩
    injection heq with h1 h2
    subst h1
    subst h2
    exact hc
  · intro hm
    exact ⟨l, labels.count l, ⟨⟨l, hl, rfl⟩, hm⟩, rfl⟩

lemma compress_snd_flags {α γ : Type} (p : γ → Bool) :
    ∀ (xs : List α) (ys : List γ), xs.length = ys.length →
      compress xs (ys.map p) = ((xs.zip ys).filter (fun q => p q.2)).map Prod.fst
  | [], [], _ => rfl
  | x :: xs, y :: ys, h => by
    have h1 : xs.length = ys.length := Nat.succ_injective h
    unfold compress
    rw [List.map_cons, List.zip_cons_cons, List.zip_cons_cons, List.filter_cons,
      List.filter_cons]
    by_cases hp : p y
    · simp only [hp, List.map_cons]
      exact congrArg _ (compress_snd_flags p xs ys h1)
    · simp only [hp]
      simp only [Bool.false_eq_true, if_neg, ite_false]
      exact compress_snd_flags p xs ys h1

lemma compress_self_snd {α γ : Type} (p : γ → Bool) :
    ∀ (xs : List α) (ys : List γ), xs.length = ys.length →
      compress ys (ys.map p) = ((xs.zip ys).filter (fun q => p q.2)).map Prod.snd
  | [], [], _ => rfl
  | x :: xs, y :: ys, h => by
    have h1 : xs.length = ys.length := Nat.succ_injective h
    unfold compress
    rw [List.map_cons, List.zip_cons_cons, List.zip_cons_cons, List.filter_cons,
      List.filter_cons]
    by_cases hp : p y
    · simp only [hp, List.map_cons]
      exact congrArg _ (compress_self_snd p xs ys h1)
    · simp only [hp]
      simp only [Bool.false_eq_true, if_neg, ite_false]
      exact compress_self_snd p xs ys h1

lemma compress_fst_flags {α γ : Type} (p : α → Bool) :
    ∀ (xs : List α) (ys : List γ), xs.length = ys.length →
      compress ys (xs.map p) = ((xs.zip ys).filter (fun q => p q.1)).map Prod.snd
  | [], [], _ => rfl
  | x :: xs, y :: ys, h => by
    have h1 : xs.length = ys.length := Nat.succ_injective h
    unfold compress
    rw [List.map_cons, List.zip_cons_cons, List.zip_cons_cons, List.filter_cons,
      List.filter_cons]
    by_cases hp : p x
    · simp only [hp, List.map_cons]
      exact congrArg _ (compress_fst_flags p xs ys h1)
    · simp only [hp]
      simp only [Bool.false_eq_true, if_neg, ite_false]
      exact compress_fst_flags p xs ys h1

lemma compress_self_fst {α γ : Type} (p : α → Bool) :
    ∀ (xs : List α) (ys : List γ), xs.length = ys.length →
      compress xs (xs.map p) = ((xs.zip ys).filter (fun q => p q.1)).map Prod.fst
  | [], [], _ => rfl
  | x :: xs, y :: ys, h => by
    have h1 : xs.length = ys.length := Nat.succ_injective h
    unfold compress
    rw [List.map_cons, List.zip_cons_cons, List.zip_cons_cons, List.filter_cons,
      List.filter_cons]
    by_cases hp : p x
    · simp only [hp, List.map_cons]
      exact congrArg _ (compress_self_fst p xs ys h1)
    · simp only [hp]
      simp only [Bool.false_eq_true, if_neg, ite_false]
      exact compress_self_fst p xs ys h1

/-- C5: over equal-length `signals` and `labels`,
`filter_by_labels` returns exactly the pairs, in their original order,
whose label occurs at least `set_min_samples` times, and
`filter_by_signals` exactly the pairs whose signal length is at most
`set_max_seq_length`; both preserve the pairing, so the returned lists
again have equal length. -/
theorem c5_filter_utils {β L : Type} [DecidableEq L]
    (signals : List (List β)) (labels : List L)
    (set_min_samples set_max_seq_length : Nat)
    (h : signals.length = labels.length) :
    ((filter_by_labels signals labels set_min_samples).1 =
        ((signals.zip labels).filter
          (fun q => set_min_samples ≤ labels.count q.2)).map Prod.fst
      ∧ (filter_by_labels signals labels set_min_samples).2 =
        ((signals.zip labels).filter
          (fun q => set_min_samples ≤ labels.count q.2)).map Prod.snd
      ∧ (filter_by_labels signals labels set_min_samples).1.length =
          (filter_by_labels signals labels set_min_samples).2.length)
    ∧ ((filter_by_signals signals labels set_max_seq_length).1 =
        ((signals.zip labels).filter
          (fun q => q.1.length ≤ set_max_seq_length)).map Prod.fst
      ∧ (filter_by_signals signals labels set_max_seq_length).2 =
        ((signals.zip labels).filter
          (fun q => q.1.length ≤ set_max_seq_length)).map Prod.snd
      ∧ (filter_by_signals signals labels set_max_seq_length).1.length =
          (filter_by_signals signals labels set_max_seq_length).2.length) := by
  have hl1 : (filter_by_labels signals labels set_min_samples).1 =
      ((signals.zip labels).filter
        (fun q => set_min_samples ≤ labels.count q.2)).map Prod.fst := by
    show compress signals (return_label_flag labels set_min_samples) = _
    rw [return_label_flag_eq labels set_min_samples]
    exact compress_snd_flags _ signals labels h
  have hl2 : (filter_by_labels signals labels set_min_samples).2 =
      ((signals.zip labels).filter
        (fun q => set_min_samples ≤ labels.count q.2)).map Prod.snd := by
    show compress labels (return_label_flag labels set_min_samples) = _
    rw [return_label_flag_eq labels set_min_samples]
    exact compress_self_snd _ signals labels h
  have hs1 : (filter_by_signals signals labels set_max_seq_length).1 =
      ((signals.zip labels).filter
        (fun q => q.1.length ≤ set_max_seq_length)).map Prod.fst := by
    show compress signals (return_signal_flag signals set_max_seq_length) = _
    unfold return_signal_flag
    rw [List.map_map]
    exact compress_self_fst _ signals labels h
  have hs2 : (filter_by_signals signals labels set_max_seq_length).2 =
      ((signals.zip labels).filter
        (fun q => q.1.length ≤ set_max_seq_length)).map Prod.snd := by
    show compress labels (return_signal_flag signals set_max_seq_length) = _
    unfold return_signal_flag
    rw [List.map_map]
    exact compress_fst_flags _ signals labels h
  refine ⟨⟨hl1, hl2, ?_⟩, hs1, hs2, ?_⟩
  · rw [hl1, hl2, List.length_map, List.length_map]
  · rw [hs1, hs2, List.length_map, List.length_map]

/-- Witness for C5. -/
theorem c5_filter_utils_witness :
    ([[true], [false, true], [true]] : List (List Bool)).length =
        (["a", "b", "a"] : List String).length ∧
    ((filter_by_labels [[true], [false, true], [true]] ["a", "b", "a"] 2).1 =
        (([[true], [false, true], [true]].zip ["a", "b", "a"]).filter
          (fun q => 2 ≤ (["a", "b", "a"] : List String).count q.2)).map Prod.fst
      ∧ (filter_by_labels [[true], [false, true], [true]] ["a", "b", "a"] 2).2 =
        (([[true], [false, true], [true]].zip ["a", "b", "a"]).filter
          (fun q => 2 ≤ (["a", "b", "a"] : List String).count q.2)).map Prod.snd
      ∧ (filter_by_labels [[true], [false, true], [true]] ["a", "b", "a"] 2).1.length =
          (filter_by_labels [[true], [false, true], [true]] ["a", "b", "a"] 2).2.length)
    ∧ ((filter_by_signals [[true], [false, true], [true]] ["a", "b", "a"] 1).1 =
        (([[true], [false, true], [true]].zip ["a", "b", "a"]).filter
          (fun q => q.1.length ≤ 1)).map Prod.fst
      ∧ (filter_by_signals [[true], [false, true], [true]] ["a", "b", "a"] 1).2 =
        (([[true], [false, true], [true]].zip ["a", "b", "a"]).filter
          (fun q => q.1.length ≤ 1)).map Prod.snd
      ∧ (filter_by_signals [[true], [false, true], [true]] ["a", "b", "a"] 1).1.length =
          (filter_by_signals [[true], [false, true], [true]] ["a", "b", "a"] 1).2.length) :=
  ⟨rfl, c5_filter_utils [[true], [false, true], [true]] ["a", "b", "a"] 2 1 rfl⟩

/-! ### Gram generation (C6) -/

lemma generate_bigrams_eq : ∀ (examples : List WordLabel),
    generate_bigrams examples =
      (List.range (examples.length - 1)).map
        (fun k => [examples.getD k default, examples.getD (k + 1) default])
  | [] => rfl
  | [_] => rfl
  | a :: b :: rest => by
    rw [generate_bigrams, generate_bigrams_eq (b :: rest)]
    simp only [List.length_cons, Nat.add_sub_cancel, List.range_succ_eq_map,
      List.map_cons, List.map_map, List.getD_cons_zero, List.getD_cons_succ]
    refine congrArg _ (List.map_congr_left (fun k _ => ?_))
    simp [Function.comp, List.getD_cons_succ]

/-- C6: the grams of a conversation are the unigrams (one word each)
when `CONFIG['classify']` is set and the bigrams (two consecutive words
each) otherwise, with duplicates removed: the deduplicated gram list has
no duplicates and the same members as the generated list, and the
generated lists are exactly the single words resp. the consecutive
pairs. -/
theorem c6_grams (classify : Bool) (examples : List WordLabel) :
    ((pregrams classify examples).dedup).Nodup
    ∧ (∀ g : Gram, g ∈ (pregrams classify examples).dedup ↔
        g ∈ pregrams classify examples)
    ∧ pregrams true examples = examples.map (fun e => [e])
    ∧ pregrams false examples =
        (List.range (examples.length - 1)).map
          (fun k => [examples.getD k default, examples.getD (k + 1) default]) := by
  refine ⟨List.nodup_dedup _, fun g => List.mem_dedup, rfl, ?_⟩
  show generate_bigrams examples = _
  exact generate_bigrams_eq examples

/-! ### `create_label_pickles` (`tfs_pickling.py` lines 61–91) -/

/-- `np.roll(range(5), i)`: entry `j` is `(j - i) mod 5`. -/
def rollRange5 (i : Nat) : List Nat :=
  (List.range 5).map (fun j => (j + (5 - i % 5)) % 5)

/-- One `df.loc[rows, fold_col] = v` write: rows in `ixs` now read `v`,
everything else keeps its previous value. -/
def writeFold (state : Nat → Option String) (ixs : List Nat) (v : String) :
    Nat → Option String :=
  fun r => if r ∈ ixs then some v else state r

/-- The value of column `fold_i` for row `r` after the three `df.loc`
writes of `create_label_pickles` (test rows first, then dev rows, then
the concatenated rows of the three train folds). -/
def assignFoldCol (folds : List (List Nat)) (i : Nat) : Nat → Option String :=
  let folds_ixs := rollRange5 i
  let test_fold := folds_ixs.getD 4 0
  let dev_fold := folds_ixs.getD 3 0
  let train_rows := folds.getD (folds_ixs.getD 0 0) [] ++
    folds.getD (folds_ixs.getD 1 0) [] ++ folds.getD (folds_ixs.getD 2 0) []
  writeFold (writeFold (writeFold (fun _ => none) (folds.getD test_fold []) "test")
    (folds.getD dev_fold []) "dev") train_rows "train"

/-- The vocabulary-frequency filter of `create_label_pickles`:
`df.groupby('word').filter(lambda x: len(x) >= args.vocab_min_freq)`,
which keeps exactly the rows whose word occurs at least
`vocab_min_freq` times, in their original order. -/
def vocab_filter (words : List String) (vocab_min_freq : Nat) : List String :=
  words.filter (fun w => vocab_min_freq ≤ words.count w)

lemma assignFoldCol_eq (folds : List (List Nat)) (i : Nat) (r : Nat) :
    assignFoldCol folds i r =
      if r ∈ folds.getD ((rollRange5 i).getD 0 0) [] ++
            folds.getD ((rollRange5 i).getD 1 0) [] ++
            folds.getD ((rollRange5 i).getD 2 0) [] then some "train"
      else if r ∈ folds.getD ((rollRange5 i).getD 3 0) [] then some "dev"
      else if r ∈ folds.getD ((rollRange5 i).getD 4 0) [] then some "test"
      else none := rfl

lemma roll_getD (i j : Nat) (hj : j < 5) :
    (rollRange5 i).getD j 0 = (j + (5 - i % 5)) % 5 := by
  unfold rollRange5
  rw [List.getD_eq_getElem?_getD, List.getElem?_map, List.getElem?_range hj]
  rfl

lemma assignFoldCol_value (folds : List (List Nat)) (i k r : Nat)
    (hi : i < 5) (hk : k < 5)
    (hdisj : ∀ a, a < 5 → ∀ b, b < 5 → a ≠ b →
      ∀ x, x ∈ folds.getD a [] → x ∉ folds.getD b [])
    (hr : r ∈ folds.getD k []) :
    assignFoldCol folds i r =
      some (if k = (9 - i) % 5 then "test"
            else if k = (8 - i) % 5 then "dev" else "train") := by
  have hmem : ∀ j, j < 5 → (r ∈ folds.getD j [] ↔ j = k) := by
    intro j hj
    constructor
    · intro hrj
      by_contra hne
      exact hdisj j hj k hk hne r hrj hr
    · rintro rfl
      exact hr
  rw [assignFoldCol_eq, roll_getD i 0 (by decide), roll_getD i 1 (by decide),
    roll_getD i 2 (by decide), roll_getD i 3 (by decide), roll_getD i 4 (by decide)]
  have m0 := hmem ((0 + (5 - i % 5)) % 5) (Nat.mod_lt _ (by decide))
  have m1 := hmem ((1 + (5 - i % 5)) % 5) (Nat.mod_lt _ (by decide))
  have m2 := hmem ((2 + (5 - i % 5)) % 5) (Nat.mod_lt _ (by decide))
  have m3 := hmem ((3 + (5 - i % 5)) % 5) (Nat.mod_lt _ (by decide))
  have m4 := hmem ((4 + (5 - i % 5)) % 5) (Nat.mod_lt _ (by decide))
  have hA : (r ∈ folds.getD ((0 + (5 - i % 5)) % 5) [] ++
      folds.getD ((1 + (5 - i % 5)) % 5) [] ++
      folds.getD ((2 + (5 - i % 5)) % 5) []) ↔
      ((0 + (5 - i % 5)) % 5 = k ∨ (1 + (5 - i % 5)) % 5 = k ∨
        (2 + (5 - i % 5)) % 5 = k) := by
    simp only [List.mem_append, m0, m1, m2, or_assoc]
  by_cases hkt : k = (9 - i) % 5
  · rw [if_pos hkt]
    have hnA : ¬(r ∈ folds.getD ((0 + (5 - i % 5)) % 5) [] ++
        folds.getD ((1 + (5 - i % 5)) % 5) [] ++
        folds.getD ((2 + (5 - i % 5)) % 5) []) := by
      rw [hA]
      omega
    have hnD : ¬(r ∈ folds.getD ((3 + (5 - i % 5)) % 5) []) := by
      rw [m3]
      omega
    rw [if_neg hnA, if_neg hnD, if_pos (m4.mpr (by omega))]
  · by_cases hkd : k = (8 - i) % 5
    · rw [if_neg hkt, if_pos hkd]
      have hnA : ¬(r ∈ folds.getD ((0 + (5 - i % 5)) % 5) [] ++
          folds.getD ((1 + (5 - i % 5)) % 5) [] ++
          folds.getD ((2 + (5 - i % 5)) % 5) []) := by
        rw [hA]
        omega
      rw [if_neg hnA, if_pos (m3.mpr (by omega))]
    · rw [if_neg hkt, if_neg hkd]
      rw [if_pos (hA.mpr (by omega))]

/-- C4: `create_label_pickles` first drops every row whose word occurs
fewer than `vocab_min_freq` times; then, provided the five folds
partition the remaining row indices, every row of every fold column
`fold_i` gets exactly one of train/dev/test, rows of fold `(9-i) mod 5`
read `test` and rows of fold `(8-i) mod 5` read `dev` (all other folds
are train folds, and test differs from dev), and the test assignment
rotates so each of the five folds is the test fold for exactly one fold
index `i`. -/
theorem c4_create_label_pickles (words : List String) (vocab_min_freq n : Nat)
    (folds : List (List Nat))
    (hdisj : ∀ a, a < 5 → ∀ b, b < 5 → a ≠ b →
      ∀ x, x ∈ folds.getD a [] → x ∉ folds.getD b [])
    (hcover : ∀ r, r < n → ∃ k, k < 5 ∧ r ∈ folds.getD k []) :
    (∀ w, w ∈ vocab_filter words vocab_min_freq ↔
        (w ∈ words ∧ vocab_min_freq ≤ words.count w))
    ∧ (∀ i, i < 5 → ∀ k, k < 5 → ∀ r, r ∈ folds.getD k [] →
        assignFoldCol folds i r =
          some (if k = (9 - i) % 5 then "test"
                else if k = (8 - i) % 5 then "dev" else "train"))
    ∧ (∀ i, i < 5 → ∀ r, r < n → ∃ v, assignFoldCol folds i r = some v ∧
        (v = "train" ∨ v = "dev" ∨ v = "test"))
    ∧ (∀ i, i < 5 → (9 - i) % 5 ≠ (8 - i) % 5)
    ∧ (∀ k, k < 5 → ∃ i, i < 5 ∧ (9 - i) % 5 = k ∧
        ∀ i2, i2 < 5 → (9 - i2) % 5 = k → i2 = i) := by
  refine ⟨?_, ?_, ?_, ?_, ?_⟩
  · intro w
    unfold vocab_filter
    simp [List.mem_filter]
  · intro i hi k hk r hr
    exact assignFoldCol_value folds i k r hi hk hdisj hr
  · intro i hi r hrn
    rcases hcover r hrn with ⟨k, hk, hr⟩
    refine ⟨if k = (9 - i) % 5 then "test"
            else if k = (8 - i) % 5 then "dev" else "train",
      assignFoldCol_value folds i k r hi hk hdisj hr, ?_⟩
    by_cases h1 : k = (9 - i) % 5
    · rw [if_pos h1]
      exact Or.inr (Or.inr rfl)
    · rw [if_neg h1]
      by_cases h2 : k = (8 - i) % 5
      · rw [if_pos h2]
        exact Or.inr (Or.inl rfl)
      · rw [if_neg h2]
        exact Or.inl rfl
  · intro i hi
    omega
  · intro k hk
    refine ⟨4 - k, by omega, by omega, fun i2 h2 he => by omega⟩

/-- Witness for C4 with the partition `[[0],[1],[2],[3],[4]]` of five
rows. -/
theorem c4_create_label_pickles_witness :
    (∀ a, a < 5 → ∀ b, b < 5 → a ≠ b →
      ∀ x, x ∈ ([[0],[1],[2],[3],[4]] : List (List Nat)).getD a [] →
        x ∉ ([[0],[1],[2],[3],[4]] : List (List Nat)).getD b []) ∧
    (∀ r, r < 5 → ∃ k, k < 5 ∧
      r ∈ ([[0],[1],[2],[3],[4]] : List (List Nat)).getD k []) ∧
    ((∀ w, w ∈ vocab_filter ["a", "a", "b"] 2 ↔
        (w ∈ ["a", "a", "b"] ∧ 2 ≤ (["a", "a", "b"] : List String).count w))
    ∧ (∀ i, i < 5 → ∀ k, k < 5 → ∀ r,
        r ∈ ([[0],[1],[2],[3],[4]] : List (List Nat)).getD k [] →
        assignFoldCol [[0],[1],[2],[3],[4]] i r =
          some (if k = (9 - i) % 5 then "test"
                else if k = (8 - i) % 5 then "dev" else "train"))
    ∧ (∀ i, i < 5 → ∀ r, r < 5 → ∃ v,
        assignFoldCol [[0],[1],[2],[3],[4]] i r = some v ∧
        (v = "train" ∨ v = "dev" ∨ v = "test"))
    ∧ (∀ i, i < 5 → (9 - i) % 5 ≠ (8 - i) % 5)
    ∧ (∀ k, k < 5 → ∃ i, i < 5 ∧ (9 - i) % 5 = k ∧
        ∀ i2, i2 < 5 → (9 - i2) % 5 = k → i2 = i)) := by
  have h1 : ∀ a, a < 5 → ∀ b, b < 5 → a ≠ b →
      ∀ x, x ∈ ([[0],[1],[2],[3],[4]] : List (List Nat)).getD a [] →
        x ∉ ([[0],[1],[2],[3],[4]] : List (List Nat)).getD b [] := by
    intro a ha b hb hne x hx
    interval_cases a <;> interval_cases b <;> simp_all
  have h2 : ∀ r, r < 5 → ∃ k, k < 5 ∧
      r ∈ ([[0],[1],[2],[3],[4]] : List (List Nat)).getD k [] := by decide
  exact ⟨h1, h2, c4_create_label_pickles ["a", "a", "b"] 2 5 [[0],[1],[2],[3],[4]] h1 h2⟩

/-! ### Arithmetic of `np.array_split`, `cumsum` and slice assignment -/

lemma range_map_getD {A : Type _} (g : Nat → A) (n j : Nat) (h : j < n) (d : A) :
    ((List.range n).map g).getD j d = g j := by
  rw [List.getD_eq_getElem?_getD, List.getElem?_map, List.getElem?_range h]
  rfl

lemma getD_map_of_lt {A B : Type _} (f : A → B) (l : List A) (i : Nat)
    (h : i < l.length) (da : A) (db : B) :
    (l.map f).getD i db = f (l.getD i da) := by
  rw [List.getD_eq_getElem?_getD, List.getElem?_map, List.getElem?_eq_getElem h,
    List.getD_eq_getElem?_getD, List.getElem?_eq_getElem h]
  rfl

lemma cumsumE_getD (me : List Nat) (k : Nat) (h : k ≤ me.length) :
    (cumsumE me).getD k 0 = (me.take k).sum := by
  unfold cumsumE
  exact range_map_getD _ _ _ (by omega) _

lemma take_sum_le (me : List Nat) (k : Nat) : (me.take k).sum ≤ me.sum := by
  conv_rhs => rw [← List.take_append_drop k me]
  rw [List.sum_append]
  exact Nat.le_add_right _ _

lemma take_succ_sum (me : List Nat) (k : Nat) (h : k < me.length) :
    (me.take (k + 1)).sum = (me.take k).sum + me.getD k 0 := by
  rw [List.take_succ, List.sum_append, List.getElem?_eq_getElem h,
    List.getD_eq_getElem?_getD, List.getElem?_eq_getElem h]
  rfl

lemma splitSizes_length (L n : Nat) : (splitSizes L n).length = n := by
  simp [splitSizes]

lemma splitSizes_mem (L n : Nat) {s : Nat} (hs : s ∈ splitSizes L n) :
    s = L / n ∨ s = L / n + 1 := by
  unfold splitSizes at hs
  rcases List.mem_map.mp hs with ⟨i, _, rfl⟩
  by_cases h : i < L % n
  · rw [if_pos h]
    exact Or.inr rfl
  · rw [if_neg h]
    exact Or.inl rfl

lemma sum_map_ite_lt : ∀ (n r : Nat),
    ((List.range n).map (fun i => if i < r then (1 : Nat) else 0)).sum = min r n
  | 0, r => by simp
  | n + 1, r => by
    rw [List.range_succ, List.map_append, List.sum_append, sum_map_ite_lt n r]
    simp only [List.map_cons, List.map_nil, List.sum_cons, List.sum_nil]
    by_cases h : n < r
    · rw [if_pos h]
      omega
    · rw [if_neg h]
      omega

lemma sum_map_const_add (c : Nat) (g : Nat → Nat) : ∀ n : Nat,
    ((List.range n).map (fun i => c + g i)).sum =
      n * c + ((List.range n).map g).sum
  | 0 => by simp
  | n + 1 => by
    rw [List.range_succ, List.map_append, List.sum_append,
      List.map_append, List.sum_append, sum_map_const_add c g n]
    simp only [List.map_cons, List.map_nil, List.sum_cons, List.sum_nil]
    ring

lemma splitSizes_sum (L n : Nat) (hn : 0 < n) : (splitSizes L n).sum = L := by
  unfold splitSizes
  have hpt : ∀ i ∈ List.range n,
      (if i < L % n then L / n + 1 else L / n) =
        L / n + (if i < L % n then 1 else 0) := by
    intro i _
    by_cases h : i < L % n
    · rw [if_pos h, if_pos h]
    · rw [if_neg h, if_neg h]
      omega
  rw [List.map_congr_left hpt, sum_map_const_add (L / n) _ n, sum_map_ite_lt n (L % n)]
  rw [Nat.min_eq_left (Nat.le_of_lt (Nat.mod_lt _ hn))]
  have := Nat.div_add_mod L n
  omega

lemma chunks_length {A : Type _} : ∀ (ss : List Nat) (l : List A),
    (chunks l ss).length = ss.length
  | [], _ => rfl
  | s :: ss, l => by
    rw [chunks, List.length_cons, List.length_cons, chunks_length ss (l.drop s)]

lemma chunks_flatten {A : Type _} : ∀ (ss : List Nat) (l : List A),
    ss.sum = l.length → (chunks l ss).flatten = l
  | [], l, h => by
    rw [chunks, List.flatten_nil]
    rw [List.sum_nil] at h
    symm
    exact List.eq_nil_of_length_eq_zero (by omega)
  | s :: ss, l, h => by
    rw [chunks, List.flatten_cons, chunks_flatten ss (l.drop s) (by
      rw [List.length_drop]
      rw [List.sum_cons] at h
      omega)]
    exact List.take_append_drop s l

lemma chunks_mem_length {A : Type _} : ∀ (ss : List Nat) (l : List A),
    ss.sum ≤ l.length → ∀ p ∈ chunks l ss, p.length ∈ ss
  | [], _, _, p, hp => absurd hp (by simp [chunks])
  | s :: ss, l, h, p, hp => by
    rw [List.sum_cons] at h
    rw [chunks] at hp
    rcases List.mem_cons.mp hp with rfl | hp2
    · rw [List.length_take]
      rw [Nat.min_eq_left (by omega)]
      exact List.mem_cons_self _ _
    · refine List.mem_cons_of_mem _ ?_
      exact chunks_mem_length ss (l.drop s) (by rw [List.length_drop]; omega) p hp2

lemma writeSeg_length (W a : Nat) (vals : List ℚ) (h : a + vals.length ≤ W) :
    (writeSeg (List.replicate W (0 : ℚ)) a vals).length = W := by
  unfold writeSeg
  rw [List.length_append, List.length_append, List.length_take, List.length_drop,
    List.length_replicate]
  omega

lemma writeSeg_getD_left (W a : Nat) (vals : List ℚ) (j : Nat)
    (hja : j < a) (haW : a ≤ W) :
    (writeSeg (List.replicate W (0 : ℚ)) a vals).getD j 0 = 0 := by
  unfold writeSeg
  rw [List.take_replicate, Nat.min_eq_left haW]
  rw [List.getD_eq_getElem?_getD,
    List.getElem?_append_left
      (by rw [List.length_append, List.length_replicate]; omega),
    List.getElem?_append_left (by rw [List.length_replicate]; exact hja),
    List.getElem?_replicate, if_pos hja]
  rfl

lemma writeSeg_getD_mid (W a : Nat) (vals : List ℚ) (j : Nat)
    (hj : j < vals.length) (haW : a ≤ W) :
    (writeSeg (List.replicate W (0 : ℚ)) a vals).getD (a + j) 0 = vals.getD j 0 := by
  unfold writeSeg
  rw [List.take_replicate, Nat.min_eq_left haW]
  rw [List.getD_eq_getElem?_getD,
    List.getElem?_append_left
      (by rw [List.length_append, List.length_replicate]; omega),
    List.getElem?_append_right (by rw [List.length_replicate]; omega),
    List.length_replicate]
  have hj2 : a + j - a = j := by omega
  rw [hj2, ← List.getD_eq_getElem?_getD]

lemma writeSeg_getD_right (W a : Nat) (vals : List ℚ) (j : Nat)
    (hja : a + vals.length ≤ j) (haW : a ≤ W) :
    (writeSeg (List.replicate W (0 : ℚ)) a vals).getD j 0 = 0 := by
  unfold writeSeg
  rw [List.take_replicate, Nat.min_eq_left haW]
  rw [List.getD_eq_getElem?_getD,
    List.getElem?_append_right
      (by rw [List.length_append, List.length_replicate]; omega),
    List.drop_replicate, List.getElem?_replicate]
  split
  · rfl
  · rfl

lemma colMean_length (ncols : Nat) (f : List (List ℚ)) :
    (colMean ncols f).length = ncols := by
  simp [colMean]

lemma colMean_getD (ncols : Nat) (f : List (List ℚ)) (j : Nat) (hj : j < ncols) :
    (colMean ncols f).getD j 0 =
      ((f.map (fun row => row.getD j 0)).sum) / (f.length : ℚ) := by
  unfold colMean
  exact range_map_getD _ _ _ hj _

lemma ecogWindow_length (ecogs : List (List ℚ)) (start_onset end_onset : Nat)
    (h1 : start_onset ≤ end_onset) (h2 : end_onset ≤ ecogs.length) :
    (ecogWindow ecogs start_onset end_onset).length = end_onset - start_onset := by
  unfold ecogWindow
  rw [List.length_take, List.length_drop]
  omega

/-- C1: an accepted gram (positive computed `seq_length`, bad-window
test false, with the window-parameter conditions spelled out as
hypotheses since `utils.calculate_windows_params` is not in the source
tree) appends exactly its `word_signal` to `signals`: a matrix of
`n_bins` rows of width `sum(CONfIG_max_electrodes)`, where
`np.array_split` cuts `ecogs[start_onset:end_onset]` into `n_bins`
contiguous near-equal nonempty parts (their concatenation is the window
and each has `⌊len/n⌋` or `⌊len/n⌋+1` rows), row `i` restricted to the
conversation's electrode column range holds the channel-wise mean of
part `i`, and every column outside that range is zero. -/
theorem c1_accepted_gram_binning (cfg : Config)
    (winParams : Gram → Int × Nat × Nat × Nat)
    (badWindow : Nat → Nat → Nat × Nat → Bool)
    (ecogs : List (List ℚ)) (idx : Nat) (gram : Gram)
    (acc : List (List (List ℚ)) × List WordLabel)
    (sl : Int) (start_onset end_onset n_bins : Nat)
    (hwp : winParams gram = (sl, start_onset, end_onset, n_bins))
    (hsl : 0 < sl)
    (hbad : badWindow start_onset end_onset
      (ecogs.length, (ecogs.headD []).length) = false)
    (hidx : idx < cfg.max_electrodes.length)
    (hse : start_onset ≤ end_onset)
    (hfit : end_onset ≤ ecogs.length)
    (hbins_pos : 0 < n_bins)
    (hbins_le : n_bins ≤ end_onset - start_onset)
    (hcols : ∀ row ∈ ecogs, row.length = cfg.max_electrodes.getD idx 0) :
    processGram cfg winParams badWindow ecogs idx acc gram =
      (acc.1 ++ [word_signal cfg.max_electrodes idx ecogs start_onset end_onset n_bins],
       acc.2 ++ [gram.headD default])
    ∧ (word_signal cfg.max_electrodes idx ecogs start_onset end_onset n_bins).length = n_bins
    ∧ (∀ row ∈ word_signal cfg.max_electrodes idx ecogs start_onset end_onset n_bins,
        row.length = cfg.max_electrodes.sum)
    ∧ (arraySplit (ecogWindow ecogs start_onset end_onset) n_bins).length = n_bins
    ∧ (arraySplit (ecogWindow ecogs start_onset end_onset) n_bins).flatten =
        ecogWindow ecogs start_onset end_onset
    ∧ (∀ p ∈ arraySplit (ecogWindow ecogs start_onset end_onset) n_bins,
        p.length = (end_onset - start_onset) / n_bins ∨
        p.length = (end_onset - start_onset) / n_bins + 1)
    ∧ (∀ p ∈ arraySplit (ecogWindow ecogs start_onset end_onset) n_bins, p ≠ [])
    ∧ (∀ i j, i < n_bins → j < cfg.max_electrodes.getD idx 0 →
        ((word_signal cfg.max_electrodes idx ecogs start_onset end_onset n_bins).getD i []).getD
            ((cumsumE cfg.max_electrodes).getD idx 0 + j) 0 =
          (((arraySplit (ecogWindow ecogs start_onset end_onset) n_bins).getD i []).map
              (fun row => row.getD j 0)).sum /
            (((arraySplit (ecogWindow ecogs start_onset end_onset) n_bins).getD i []).length : ℚ))
    ∧ (∀ i j, i < n_bins → j < cfg.max_electrodes.sum →
        (j < (cumsumE cfg.max_electrodes).getD idx 0 ∨
          (cumsumE cfg.max_electrodes).getD (idx + 1) 0 ≤ j) →
        ((word_signal cfg.max_electrodes idx ecogs start_onset end_onset n_bins).getD i []).getD
          j 0 = 0) := by
  have hwin : (ecogWindow ecogs start_onset end_onset).length = end_onset - start_onset :=
    ecogWindow_length ecogs start_onset end_onset hse hfit
  have hlenpos : 0 < ecogs.length := by omega
  have hncols : (ecogs.headD []).length = cfg.max_electrodes.getD idx 0 := by
    cases ecogs with
    | nil => simp at hlenpos
    | cons r t => exact hcols r (List.mem_cons_self r t)
  have hsum : (splitSizes (ecogWindow ecogs start_onset end_onset).length n_bins).sum =
      (ecogWindow ecogs start_onset end_onset).length :=
    splitSizes_sum _ _ hbins_pos
  have hparts_len :
      (arraySplit (ecogWindow ecogs start_onset end_onset) n_bins).length = n_bins := by
    unfold arraySplit
    rw [chunks_length, splitSizes_length]
  have hflat : (arraySplit (ecogWindow ecogs start_onset end_onset) n_bins).flatten =
      ecogWindow ecogs start_onset end_onset :=
    chunks_flatten _ _ hsum
  have hmemlen : ∀ p ∈ arraySplit (ecogWindow ecogs start_onset end_onset) n_bins,
      p.length ∈ splitSizes (ecogWindow ecogs start_onset end_onset).length n_bins :=
    chunks_mem_length _ _ (le_of_eq hsum)
  have hsizes : ∀ p ∈ arraySplit (ecogWindow ecogs start_onset end_onset) n_bins,
      p.length = (end_onset - start_onset) / n_bins ∨
      p.length = (end_onset - start_onset) / n_bins + 1 := by
    intro p hp
    have h2 := splitSizes_mem _ _ (hmemlen p hp)
    rw [hwin] at h2
    exact h2
  have hq_pos : 0 < (end_onset - start_onset) / n_bins := Nat.div_pos hbins_le hbins_pos
  have hne : ∀ p ∈ arraySplit (ecogWindow ecogs start_onset end_onset) n_bins, p ≠ [] := by
    intro p hp
    rcases hsizes p hp with h2 | h2 <;>
      · refine List.length_pos.mp ?_
        omega
  have ha : (cumsumE cfg.max_electrodes).getD idx 0 = (cfg.max_electrodes.take idx).sum :=
    cumsumE_getD _ _ (Nat.le_of_lt hidx)
  have hsucc : (cumsumE cfg.max_electrodes).getD (idx + 1) 0 =
      (cumsumE cfg.max_electrodes).getD idx 0 + cfg.max_electrodes.getD idx 0 := by
    rw [cumsumE_getD _ _ hidx, ha, take_succ_sum _ _ hidx]
  have ha_le : (cumsumE cfg.max_electrodes).getD idx 0 + cfg.max_electrodes.getD idx 0 ≤
      cfg.max_electrodes.sum := by
    rw [ha, ← take_succ_sum _ _ hidx]
    exact take_sum_le _ _
  have haW : (cumsumE cfg.max_electrodes).getD idx 0 ≤ cfg.max_electrodes.sum := by omega
  have hsig_getD : ∀ i, i < n_bins →
      (word_signal cfg.max_electrodes idx ecogs start_onset end_onset n_bins).getD i [] =
        writeSeg (List.replicate cfg.max_electrodes.sum (0 : ℚ))
          ((cumsumE cfg.max_electrodes).getD idx 0)
          (colMean (ecogs.headD []).length
            ((arraySplit (ecogWindow ecogs start_onset end_onset) n_bins).getD i [])) := by
    intro i hi
    unfold word_signal
    exact getD_map_of_lt _ _ i (by rw [hparts_len]; exact hi) [] []
  refine ⟨?_, ?_, ?_, hparts_len, hflat, hsizes, hne, ?_, ?_⟩
  · unfold processGram
    rw [hwp]
    dsimp only
    rw [if_neg (by omega : ¬ sl ≤ 0), if_neg (by rw [hbad]; exact Bool.false_ne_true)]
  · unfold word_signal
    rw [List.length_map, hparts_len]
  · intro row hrow
    unfold word_signal at hrow
    rcases List.mem_map.mp hrow with ⟨p, hp, rfl⟩
    have hv : (cumsumE cfg.max_electrodes).getD idx 0 +
        (colMean (ecogs.headD []).length p).length ≤ cfg.max_electrodes.sum := by
      rw [colMean_length, hncols]
      exact ha_le
    exact writeSeg_length _ _ _ hv
  · intro i j hi hj
    rw [hsig_getD i hi]
    rw [writeSeg_getD_mid _ _ _ _ (by rw [colMean_length, hncols]; exact hj) haW]
    rw [colMean_getD _ _ _ (by rw [hncols]; exact hj)]
  · intro i j hi hjW hside
    rw [hsig_getD i hi]
    rcases hside with hl | hr
    · exact writeSeg_getD_left _ _ _ _ hl haW
    · refine writeSeg_getD_right _ _ _ _ ?_ haW
      rw [colMean_length, hncols]
      rw [hsucc] at hr
      omega

/-- Concrete electrode matrix for the C1 witness. -/
def wECogs : List (List ℚ) := [[1, 2], [3, 4]]

/-- Concrete configuration for the C1 witness. -/
def wCfg : Config := ⟨true, [2]⟩

/-- Concrete window parameters for the C1 witness. -/
def wWin : Gram → Int × Nat × Nat × Nat := fun _ => (1, 0, 2, 2)

/-- Concrete bad-window test for the C1 witness. -/
def wBad : Nat → Nat → Nat × Nat → Bool := fun _ _ _ => false

/-- Witness for C1 on a 2×2 electrode matrix split into two bins. -/
theorem c1_accepted_gram_binning_witness :
    (wWin [(default : WordLabel)] = (1, 0, 2, 2)
      ∧ (0 : Int) < 1
      ∧ wBad 0 2 (wECogs.length, (wECogs.headD []).length) = false
      ∧ 0 < wCfg.max_electrodes.length
      ∧ 0 ≤ 2 ∧ 2 ≤ wECogs.length ∧ 0 < 2 ∧ 2 ≤ 2 - 0
      ∧ (∀ row ∈ wECogs, row.length = wCfg.max_electrodes.getD 0 0))
    ∧ (processGram wCfg wWin wBad wECogs 0 ([], []) [(default : WordLabel)] =
        (([] : List (List (List ℚ))) ++ [word_signal wCfg.max_electrodes 0 wECogs 0 2 2],
         ([] : List WordLabel) ++ [([(default : WordLabel)]).headD default])
      ∧ (word_signal wCfg.max_electrodes 0 wECogs 0 2 2).length = 2
      ∧ (∀ row ∈ word_signal wCfg.max_electrodes 0 wECogs 0 2 2,
          row.length = wCfg.max_electrodes.sum)
      ∧ (arraySplit (ecogWindow wECogs 0 2) 2).length = 2
      ∧ (arraySplit (ecogWindow wECogs 0 2) 2).flatten = ecogWindow wECogs 0 2
      ∧ (∀ p ∈ arraySplit (ecogWindow wECogs 0 2) 2,
          p.length = (2 - 0) / 2 ∨ p.length = (2 - 0) / 2 + 1)
      ∧ (∀ p ∈ arraySplit (ecogWindow wECogs 0 2) 2, p ≠ [])
      ∧ (∀ i j, i < 2 → j < wCfg.max_electrodes.getD 0 0 →
          ((word_signal wCfg.max_electrodes 0 wECogs 0 2 2).getD i []).getD
              ((cumsumE wCfg.max_electrodes).getD 0 0 + j) 0 =
            (((arraySplit (ecogWindow wECogs 0 2) 2).getD i []).map
                (fun row => row.getD j 0)).sum /
              (((arraySplit (ecogWindow wECogs 0 2) 2).getD i []).length : ℚ))
      ∧ (∀ i j, i < 2 → j < wCfg.max_electrodes.sum →
          (j < (cumsumE wCfg.max_electrodes).getD 0 0 ∨
            (cumsumE wCfg.max_electrodes).getD (0 + 1) 0 ≤ j) →
          ((word_signal wCfg.max_electrodes 0 wECogs 0 2 2).getD i []).getD j 0 = 0)) :=
  ⟨⟨rfl, by decide, rfl, by decide, by decide, by decide, by decide, by decide, by decide⟩,
   c1_accepted_gram_binning wCfg wWin wBad wECogs 0 [(default : WordLabel)] ([], [])
     1 0 2 2 rfl (by decide) rfl (by decide) (by decide) (by decide) (by decide)
     (by decide) (by decide)⟩

end Brain2Text
